import Mathlib

/-!
Verification of the data-transformation pipeline of `scripts/analysis.py`.

The script fetches World Bank indicators (`fetch_indicator`), outer-joins
them into one table, filters and cleans it, and derives two ratio columns
(`build_dataset`); a further function (`forecast_renewable_share`) extracts
one country's renewable-share series and plots an ARIMA forecast against a
computed range of future years.

The shallow embedding below models:
  * parsed JSON response bodies (`JVal`) and Python's `int()` on strings
    (`pyInt`);
  * `fetch_indicator` as a pure function of the HTTP status and the parsed
    body, returning `Except FetchError` (the Python code raises; here the
    exception is the `Except.error` branch);
  * a pandas DataFrame as a `Frame`: a list of column labels plus rows,
    each row being a join key (country_code, country, year — the three
    columns the script merges on) together with a positional list of value
    cells.  A float cell is `Cell`: NaN (the missing-value marker produced
    by an outer join or a null in the source), plus or minus infinity (as
    produced by float division by zero), or a finite value modelled as a
    rational;
  * `build_dataset` as the composition of the outer-join fold, the
    year/code-length filter, the country filter, the required-column
    `dropna`, the rename, and the two derived columns, exactly in the
    order of the source;
  * the forecast-year index `range(series.index.max() + 1,
    series.index.max() + 1 + steps)` of `forecast_renewable_share`.
-/

/-- Parsed JSON values, as produced by `response.json()`. -/
inductive JVal where
  | jnull
  | jbool (b : Bool)
  | jnum (q : ℚ)
  | jstr (s : String)
  | jarr (elems : List JVal)
  | jobj (fields : List (String × JVal))

/-- Field access on a JSON object, `rec["k"]`.  `none` models the Python
`KeyError` on a missing key as well as the `TypeError` of indexing a
non-dict with a string key. -/
def JVal.getField : JVal → String → Option JVal
  | JVal.jobj fs, k => fs.lookup k
  | _, _ => none

/-- Numeric value of a list of decimal digit characters. -/
def digitsVal (cs : List Char) : Nat :=
  cs.foldl (fun acc c => 10 * acc + (c.toNat - 48)) 0

/-- Model of Python `int(s)` on a string: surrounding whitespace is
ignored, an optional single sign is followed by at least one decimal
digit; anything else raises `ValueError`, modelled as `none`.  (The model
omits underscore digit separators, which never occur in World Bank date
strings.) -/
def pyInt (s : String) : Option Int :=
  let cs := ((s.toList.dropWhile Char.isWhitespace).reverse.dropWhile
    Char.isWhitespace).reverse
  match cs with
  | [] => none
  | '+' :: rest =>
    if rest ≠ [] ∧ rest.all Char.isDigit then some (digitsVal rest) else none
  | '-' :: rest =>
    if rest ≠ [] ∧ rest.all Char.isDigit then some (-(digitsVal rest : Int))
    else none
  | _ => if cs.all Char.isDigit then some (digitsVal cs) else none

/-- Errors of the fetch stage: a non-success HTTP status
(`response.raise_for_status()`), or a response whose shape does not match
the expected two-part JSON with well-formed observation records
(`IndexError` / `KeyError` / `TypeError` / `ValueError` in the Python
loop). -/
inductive FetchError where
  | httpError (status : Nat)
  | shapeError (what : String)
deriving DecidableEq

/-- The join key of every table in the pipeline: the three columns
`country_code`, `country`, `year` that `build_dataset` merges on. -/
structure Key where
  country_code : String
  country : String
  year : Int
deriving DecidableEq

/-- One float cell of a DataFrame: NaN (`na`, pandas' missing-value
marker), an infinity (as produced by float division by zero), or a finite
value, modelled as a rational. -/
inductive Cell where
  | na
  | posinf
  | neginf
  | val (q : ℚ)
deriving DecidableEq

/-- Elementwise float multiplication as numpy performs it for the
`total_energy_use` column: NaN propagates, infinities follow the sign
rules, `0 × ∞` is NaN.  (Finite arithmetic is modelled exactly over ℚ;
rounding is out of scope.) -/
def Cell.mul : Cell → Cell → Cell
  | Cell.na, _ => Cell.na
  | _, Cell.na => Cell.na
  | Cell.val a, Cell.val b => Cell.val (a * b)
  | Cell.posinf, Cell.posinf => Cell.posinf
  | Cell.posinf, Cell.neginf => Cell.neginf
  | Cell.neginf, Cell.posinf => Cell.neginf
  | Cell.neginf, Cell.neginf => Cell.posinf
  | Cell.posinf, Cell.val b =>
    if 0 < b then Cell.posinf else if b < 0 then Cell.neginf else Cell.na
  | Cell.val a, Cell.posinf =>
    if 0 < a then Cell.posinf else if a < 0 then Cell.neginf else Cell.na
  | Cell.neginf, Cell.val b =>
    if 0 < b then Cell.neginf else if b < 0 then Cell.posinf else Cell.na
  | Cell.val a, Cell.neginf =>
    if 0 < a then Cell.neginf else if a < 0 then Cell.posinf else Cell.na

/-- Elementwise float division as numpy performs it for the
`energy_intensity` column: NaN propagates; division of a nonzero finite
value by zero yields a signed infinity (pandas does not raise and does
not produce NaN there); `0 / 0` and `∞ / ∞` yield NaN; division by an
infinity yields zero.  (The model has a single zero, so the sign of a
zero divisor is always positive.) -/
def Cell.div : Cell → Cell → Cell
  | Cell.na, _ => Cell.na
  | _, Cell.na => Cell.na
  | Cell.val a, Cell.val b =>
    if b = 0 then
      (if 0 < a then Cell.posinf else if a < 0 then Cell.neginf else Cell.na)
    else Cell.val (a / b)
  | Cell.val _, Cell.posinf => Cell.val 0
  | Cell.val _, Cell.neginf => Cell.val 0
  | Cell.posinf, Cell.val b => if 0 ≤ b then Cell.posinf else Cell.neginf
  | Cell.neginf, Cell.val b => if 0 ≤ b then Cell.neginf else Cell.posinf
  | _, _ => Cell.na

/-- One observation record of the API response, parsed as in the loop of
`fetch_indicator` (analysis.py lines 46-54): `country_code` from
`countryiso3code`, `country` from `country.value`, `year` from
`int(date)`, and the value cell from `value` (null becomes NaN, a number
becomes a finite cell).  The embedding fixes the field types to the API
schema — string code, name and date, numeric-or-null value — and maps a
record outside that schema to a shape error; this only shrinks the set of
responses on which the model succeeds, it never changes a produced row. -/
def parseRec (rec : JVal) : Except FetchError (Key × Cell) :=
  match rec.getField "countryiso3code",
      (rec.getField "country").bind (fun c => c.getField "value"),
      rec.getField "date", rec.getField "value" with
  | some (JVal.jstr code), some (JVal.jstr name), some (JVal.jstr date),
      some v =>
    match pyInt date, v with
    | some y, JVal.jnull => Except.ok (⟨code, name, y⟩, Cell.na)
    | some y, JVal.jnum q => Except.ok (⟨code, name, y⟩, Cell.val q)
    | _, _ => Except.error (FetchError.shapeError "bad record")
  | _, _, _, _ => Except.error (FetchError.shapeError "bad record")

/-- The `for rec in records` loop of `fetch_indicator`: records are parsed
in order and the first failure aborts the whole fetch, as the uncaught
Python exception would. -/
def parseAll : List JVal → Except FetchError (List (Key × Cell))
  | [] => Except.ok []
  | rec :: rest =>
    match parseRec rec with
    | Except.error e => Except.error e
    | Except.ok row =>
      match parseAll rest with
      | Except.error e => Except.error e
      | Except.ok rows => Except.ok (row :: rows)

/-- Model of `response.raise_for_status()`: an error exactly for a 4xx or
5xx status code. -/
def raiseForStatus (status : Nat) : Except FetchError Unit :=
  if 400 ≤ status ∧ status < 600 then
    Except.error (FetchError.httpError status)
  else Except.ok ()

/-- The indexing `json_data[1]`: the second element of the parsed body,
or the error the Python `IndexError` / `KeyError` / `TypeError` on a
body without one would raise. -/
def secondElement (body : JVal) : Except FetchError JVal :=
  match body with
  | JVal.jarr elems =>
    match elems.get? 1 with
    | some v => Except.ok v
    | none => Except.error (FetchError.shapeError "missing second element")
  | _ => Except.error (FetchError.shapeError "response not a list")

/-- The `for rec in records` requirement that the second element be a
sequence of records; iterating anything else ends in an uncaught Python
error. -/
def recordsOf (v : JVal) : Except FetchError (List JVal) :=
  match v with
  | JVal.jarr records => Except.ok records
  | _ => Except.error (FetchError.shapeError "records not a list")

/-- Model of `fetch_indicator` (analysis.py lines 22-55) as a pure
function of the HTTP status code and the parsed JSON body: raise for a
bad status, take the second element of the response (`json_data[1]`),
iterate over its records, and return the tidy observation table. -/
def fetch_indicator (status : Nat) (body : JVal) :
    Except FetchError (List (Key × Cell)) :=
  match raiseForStatus status with
  | Except.error e => Except.error e
  | Except.ok _ =>
    match secondElement body with
    | Except.error e => Except.error e
    | Except.ok v =>
      match recordsOf v with
      | Except.error e => Except.error e
      | Except.ok records => parseAll records

/-- A pandas DataFrame of the pipeline: ordered column labels (beyond the
three key columns) and rows, each row a key plus one cell per column,
positionally aligned with `cols`. -/
structure Frame where
  cols : List String
  rows : List (Key × List Cell)
deriving DecidableEq

/-- A run of NaN cells, as an outer join fills in for the columns of the
side on which a key is absent. -/
def naList (n : Nat) : List Cell := List.replicate n Cell.na

/-- The single-indicator DataFrame returned by `fetch_indicator`: key
columns plus one value column labelled with the indicator code. -/
def indFrame (name : String) (t : List (Key × Cell)) : Frame :=
  ⟨[name], t.map (fun r => (r.1, [r.2]))⟩

/-- One step of the join fold:
`pd.merge(left, right, on=["country_code", "country", "year"],
how="outer")`.  Every pair of rows agreeing on the full key is combined;
a left row with no match keeps its cells and gets NaN for the right
columns; a right row with no match gets NaN for the left columns. -/
def mergeOuter (l r : Frame) : Frame :=
  { cols := l.cols ++ r.cols
    rows :=
      l.rows.flatMap (fun lr =>
        let ms := r.rows.filter (fun rr => rr.1 == lr.1)
        if ms.isEmpty then [(lr.1, lr.2 ++ naList r.cols.length)]
        else ms.map (fun rr => (lr.1, lr.2 ++ rr.2)))
      ++ (r.rows.filter (fun rr => l.rows.all (fun lr => !(lr.1 == rr.1)))).map
          (fun rr => (rr.1, naList l.cols.length ++ rr.2)) }

/-- `functools.reduce` of `mergeOuter` over the fetched frames
(analysis.py lines 84-89). -/
def mergeFrames : List Frame → Frame
  | [] => ⟨[], []⟩
  | f :: rest => rest.foldl mergeOuter f

/-- Cell of a row under a column label: positional lookup of the label in
the column list.  (Absent labels yield NaN; the pipeline only ever reads
labels that are present.) -/
def getCol (cols : List String) (cells : List Cell) (name : String) : Cell :=
  match cols.indexOf? name with
  | some i => cells.getD i Cell.na
  | none => Cell.na

/-- Indicator code for renewable energy consumption share. -/
def indicatorRS : String := "EG.FEC.RNEW.ZS"

/-- Indicator code for energy use per capita. -/
def indicatorEU : String := "EG.USE.PCAP.KG.OE"

/-- Indicator code for total population. -/
def indicatorPop : String := "SP.POP.TOTL"

/-- Indicator code for GDP per capita. -/
def indicatorGDP : String := "NY.GDP.PCAP.KD"

/-- The merged table before any filtering: the reduce of the outer join
over the four indicator frames, in the order of the `indicators` list of
`build_dataset`. -/
def mergedRaw (t1 t2 t3 t4 : List (Key × Cell)) : Frame :=
  mergeFrames [indFrame indicatorRS t1, indFrame indicatorEU t2,
    indFrame indicatorPop t3, indFrame indicatorGDP t4]

/-- Filter `(merged["year"] >= 1990) & (merged["country_code"].str.len() == 3)`. -/
def filterYearLen (f : Frame) : Frame :=
  ⟨f.cols, f.rows.filter (fun r =>
    decide (1990 ≤ r.1.year) && (r.1.country_code.length == 3))⟩

/-- Filter `merged["country_code"].isin(countries)`. -/
def filterCountries (countries : List String) (f : Frame) : Frame :=
  ⟨f.cols, f.rows.filter (fun r => countries.contains r.1.country_code)⟩

/-- Filter `merged.dropna(subset=["EG.FEC.RNEW.ZS", "EG.USE.PCAP.KG.OE"])`:
keep only rows whose two required indicator cells are not NaN. -/
def dropnaRequired (f : Frame) : Frame :=
  ⟨f.cols, f.rows.filter (fun r =>
    !(getCol f.cols r.2 indicatorRS == Cell.na)
    && !(getCol f.cols r.2 indicatorEU == Cell.na))⟩

/-- The column-rename dictionary of `build_dataset`. -/
def renameCol (c : String) : String :=
  if c = indicatorRS then "renewable_share"
  else if c = indicatorEU then "energy_use_per_capita"
  else if c = indicatorPop then "population"
  else if c = indicatorGDP then "gdp_per_capita"
  else c

/-- `merged.rename(columns=...)`: relabels columns, leaves cells alone. -/
def renameFrame (f : Frame) : Frame :=
  ⟨f.cols.map renameCol, f.rows⟩

/-- The two derived-column assignments of `build_dataset`:
`total_energy_use = energy_use_per_capita * population` and
`energy_intensity = energy_use_per_capita / gdp_per_capita`, appended as
the last two columns. -/
def addDerived (f : Frame) : Frame :=
  ⟨f.cols ++ ["total_energy_use", "energy_intensity"],
   f.rows.map (fun r =>
     (r.1, r.2 ++
       [Cell.mul (getCol f.cols r.2 "energy_use_per_capita")
          (getCol f.cols r.2 "population"),
        Cell.div (getCol f.cols r.2 "energy_use_per_capita")
          (getCol f.cols r.2 "gdp_per_capita")]))⟩

/-- Model of `build_dataset` (analysis.py lines 58-112) as a function of
the four fetched indicator tables and the country list: outer-join fold,
year and code-length filter, country filter, required-column dropna,
rename, derived columns — in exactly the order of the source. -/
def build_dataset (t1 t2 t3 t4 : List (Key × Cell))
    (countries : List String) : Frame :=
  addDerived (renameFrame (dropnaRequired (filterCountries countries
    (filterYearLen (mergedRaw t1 t2 t3 t4)))))

/-- The country list hard-coded in `main`. -/
def mainCountries : List String :=
  ["USA", "CHN", "IND", "JPN", "RUS", "DEU", "GBR", "FRA", "BRA", "CAN",
   "AUS", "ZAF", "MEX", "SAU", "IDN", "KOR", "ITA", "ESP", "TUR"]

/-- Python `range(a, b)` over integers. -/
def pyRange (a b : Int) : List Int :=
  (List.range (b - a).toNat).map (fun (i : Nat) => a + (i : Int))

/-- The series extraction of `forecast_renewable_share` (analysis.py
lines 190-195): rows of the chosen country, sorted ascending by year,
restricted to the `renewable_share` column, missing values dropped.  The
result lists (year, value) pairs. -/
def seriesFor (f : Frame) (cc : String) : List (Int × ℚ) :=
  (((f.rows.filter (fun r => r.1.country_code == cc)).map
      (fun r => (r.1.year, getCol f.cols r.2 "renewable_share"))).mergeSort
      (fun a b => a.1 ≤ b.1)).filterMap
    (fun p => match p.2 with
      | Cell.val q => some (p.1, q)
      | _ => none)

/-- `series.index.max()`: the last observed year of the extracted series,
`none` when the series is empty. -/
def lastYear (f : Frame) (cc : String) : Option Int :=
  ((seriesFor f cc).map Prod.fst).max?

/-- The forecast year axis of `forecast_renewable_share`:
`range(series.index.max() + 1, series.index.max() + 1 + steps)`. -/
def forecastYears (f : Frame) (cc : String) (steps : Nat) : List Int :=
  match lastYear f cc with
  | some y => pyRange (y + 1) (y + 1 + (steps : Int))
  | none => []

/-- The plotted forecast points: the computed year axis paired with the
point forecasts returned by the fitted model
(`plt.plot(forecast_index, forecast.values, ...)`). -/
def forecastPoints (f : Frame) (cc : String) (steps : Nat)
    (preds : List ℚ) : List (Int × ℚ) :=
  (forecastYears f cc steps).zip preds

/-- The records list of a response body, when the body has the expected
two-part shape; used to state claims about malformed records. -/
def responseRecords (body : JVal) : Option (List JVal) :=
  match secondElement body with
  | Except.ok v =>
    match recordsOf v with
    | Except.ok records => some records
    | Except.error _ => none
  | Except.error _ => none

/-- A response body that has a second element, i.e. on which
`json_data[1]` does not raise. -/
def hasSecond (body : JVal) : Prop :=
  ∃ elems v, body = JVal.jarr elems ∧ elems.get? 1 = some v

/-- An observation record lacking one of the four fields the fetch loop
reads (counting an unreachable `country.value` as lacking). -/
def lacksExpectedField (rec : JVal) : Prop :=
  rec.getField "countryiso3code" = none ∨
  (rec.getField "country").bind (fun c => c.getField "value") = none ∨
  rec.getField "date" = none ∨
  rec.getField "value" = none

/-- Whether a fetch result is the error branch (the uncaught Python
exception): `true` exactly when no table — not even a partial one — is
returned. -/
def isErr {α : Type} : Except FetchError α → Bool
  | Except.error _ => true
  | Except.ok _ => false

/-- The country code a record would contribute, read with a default;
used only to state uniqueness hypotheses about raw responses. -/
def recCode (rec : JVal) : String :=
  match rec.getField "countryiso3code" with
  | some (JVal.jstr s) => s
  | _ => ""

/-- The integer year a record would contribute, read with a default;
used only to state uniqueness hypotheses about raw responses. -/
def recYear (rec : JVal) : Int :=
  match rec.getField "date" with
  | some (JVal.jstr s) => (pyInt s).getD 0
  | _ => 0

/-- The (country_code, year) pair a record contributes to the fetched
table. -/
def recKey (rec : JVal) : String × Int := (recCode rec, recYear rec)

/-- Well-formedness of a frame: every row carries exactly one cell per
column label. -/
def FrameWF (f : Frame) : Prop := ∀ r ∈ f.rows, r.2.length = f.cols.length

/-- A frame contains some row keyed by `k`. -/
def Frame.hasKey (f : Frame) (k : Key) : Prop := ∃ cs, (k, cs) ∈ f.rows

/-- A fetched indicator table contains some observation keyed by `k`. -/
def tblHasKey (t : List (Key × Cell)) (k : Key) : Prop := ∃ c, (k, c) ∈ t

/-- The (USA, United States, 2020) key used by the concrete scenarios. -/
def usaKey2020 : Key := ⟨"USA", "United States", 2020⟩

/-- The single observation record of the Observation-row scenario:
countryiso3code USA, country value United States, date 2020, value
331000000. -/
def usaPopRec : JVal :=
  JVal.jobj [("countryiso3code", JVal.jstr "USA"),
    ("country", JVal.jobj [("value", JVal.jstr "United States")]),
    ("date", JVal.jstr "2020"), ("value", JVal.jnum 331000000)]

/-- A second, distinctly keyed observation record (Canada, 2020, null
value), used alongside `usaPopRec`. -/
def canPopRec : JVal :=
  JVal.jobj [("countryiso3code", JVal.jstr "CAN"),
    ("country", JVal.jobj [("value", JVal.jstr "Canada")]),
    ("date", JVal.jstr "2020"), ("value", JVal.jnull)]

/-- Concrete one-row renewable-share table used by the scenarios. -/
def wrsTbl : List (Key × Cell) := [(usaKey2020, Cell.val 15)]

/-- Concrete one-row energy-use table with a present value. -/
def weuTbl : List (Key × Cell) := [(usaKey2020, Cell.val 5)]

/-- Concrete one-row energy-use table whose value is null at the key. -/
def weuNaTbl : List (Key × Cell) := [(usaKey2020, Cell.na)]

/-- Concrete one-row population table with a present value. -/
def wpopTbl : List (Key × Cell) := [(usaKey2020, Cell.val 331000000)]

/-- Concrete one-row population table with value 3 (for the derived
product). -/
def wpop3Tbl : List (Key × Cell) := [(usaKey2020, Cell.val 3)]

/-- Concrete one-row population table whose value is null at the key. -/
def wpopNaTbl : List (Key × Cell) := [(usaKey2020, Cell.na)]

/-- Concrete one-row GDP table with value 2 (for the derived quotient). -/
def wgdp2Tbl : List (Key × Cell) := [(usaKey2020, Cell.val 2)]

/-- Concrete one-row GDP table with value 0 (for the zero-division case). -/
def wgdp0Tbl : List (Key × Cell) := [(usaKey2020, Cell.val 0)]

/-- Concrete one-row GDP table whose value is null at the key. -/
def wgdpNaTbl : List (Key × Cell) := [(usaKey2020, Cell.na)]

/-- A one-row merged table with a renewable-share value for USA in 2020,
used to exercise the Forecaster's year index. -/
def forecastSample : Frame :=
  ⟨["renewable_share"], [(usaKey2020, [Cell.val 10])]⟩

/-! ### Lemmas about the fetch stage -/

lemma parseRec_error_of_lacks (rec : JVal) (h : lacksExpectedField rec) :
    ∀ x, parseRec rec ≠ Except.ok x := by
  intro x hok
  unfold parseRec at hok
  split at hok
  · rcases h with h | h | h | h <;> simp_all
  · exact Except.noConfusion hok

lemma parseRec_ok_fields (rec : JVal) (k : Key) (c : Cell)
    (h : parseRec rec = Except.ok (k, c)) :
    rec.getField "countryiso3code" = some (JVal.jstr k.country_code) ∧
    (∃ s, rec.getField "date" = some (JVal.jstr s) ∧ pyInt s = some k.year) := by
  unfold parseRec at h
  split at h
  · rename_i code name date v heq1 heq2 heq3 heq4
    split at h
    · rename_i y hy
      injection h with h'
      obtain ⟨hk, -⟩ := Prod.mk.injEq .. ▸ h'
      subst hk
      exact ⟨heq1, date, heq3, hy⟩
    · rename_i y q hy
      injection h with h'
      obtain ⟨hk, -⟩ := Prod.mk.injEq .. ▸ h'
      subst hk
      exact ⟨heq1, date, heq3, hy⟩
    · exact Except.noConfusion h
  · exact Except.noConfusion h

lemma parseRec_recKey (rec : JVal) (k : Key) (c : Cell)
    (h : parseRec rec = Except.ok (k, c)) :
    recKey rec = (k.country_code, k.year) := by
  obtain ⟨h1, s, h3, h4⟩ := parseRec_ok_fields rec k c h
  unfold recKey recCode recYear
  rw [h1, h3]
  simp [h4]

lemma parseRec_error_of_bad_date (rec : JVal) (s : String)
    (hd : rec.getField "date" = some (JVal.jstr s)) (hs : pyInt s = none) :
    ∀ x, parseRec rec ≠ Except.ok x := by
  intro x hok
  obtain ⟨k, c⟩ := x
  obtain ⟨-, s', h3, h4⟩ := parseRec_ok_fields rec k c hok
  rw [hd] at h3
  injection h3 with h3
  injection h3 with h3
  rw [h3] at hs
  rw [hs] at h4
  exact Option.noConfusion h4

lemma parseAll_error_of_mem (records : List JVal) (rec : JVal)
    (hm : rec ∈ records) (hfail : ∀ x, parseRec rec ≠ Except.ok x) :
    isErr (parseAll records) = true := by
  induction records with
  | nil => cases hm
  | cons a rest ih =>
    rcases List.mem_cons.mp hm with h | h
    · unfold parseAll
      cases hpr : parseRec a with
      | error e => rfl
      | ok x => exact absurd hpr (h ▸ hfail x)
    · unfold parseAll
      cases hpr : parseRec a with
      | error e => rfl
      | ok x =>
        cases hpa : parseAll rest with
        | error e => rfl
        | ok rows =>
          have hih := ih h
          rw [hpa] at hih
          exact absurd hih (by simp [isErr])

lemma parseAll_ok_map (records : List JVal) (rows : List (Key × Cell))
    (h : parseAll records = Except.ok rows) :
    rows.map (fun r => (r.1.country_code, r.1.year)) = records.map recKey := by
  induction records generalizing rows with
  | nil =>
    unfold parseAll at h
    injection h with h
    subst h
    rfl
  | cons a rest ih =>
    unfold parseAll at h
    cases hpr : parseRec a with
    | error e => rw [hpr] at h; exact Except.noConfusion h
    | ok row =>
      rw [hpr] at h
      cases hpa : parseAll rest with
      | error e => rw [hpa] at h; exact Except.noConfusion h
      | ok rows' =>
        rw [hpa] at h
        injection h with h
        subst h
        have hk : recKey a = (row.1.country_code, row.1.year) :=
          parseRec_recKey a row.1 row.2 (by rw [hpr])
        simp [ih rows' hpa, hk]

lemma secondElement_error_of_not_hasSecond (body : JVal)
    (hns : ¬ hasSecond body) : ∃ e, secondElement body = Except.error e := by
  cases body with
  | jarr elems =>
    cases hget : elems.get? 1 with
    | some v => exact absurd ⟨elems, v, rfl, hget⟩ hns
    | none => exact ⟨_, by simp only [secondElement]; rw [hget]⟩
  | jnull => exact ⟨_, rfl⟩
  | jbool b => exact ⟨_, rfl⟩
  | jnum q => exact ⟨_, rfl⟩
  | jstr s => exact ⟨_, rfl⟩
  | jobj fs => exact ⟨_, rfl⟩

lemma fetch_ok_parseAll (status : Nat) (body : JVal)
    (records : List JVal) (rows : List (Key × Cell))
    (hr : responseRecords body = some records)
    (h : fetch_indicator status body = Except.ok rows) :
    parseAll records = Except.ok rows := by
  unfold fetch_indicator at h
  unfold responseRecords at hr
  cases hrs : raiseForStatus status with
  | error e => rw [hrs] at h; exact Except.noConfusion h
  | ok u =>
    rw [hrs] at h
    cases hse : secondElement body with
    | error e => rw [hse] at hr; exact Option.noConfusion hr
    | ok v =>
      rw [hse] at h hr
      have h2 : (match recordsOf v with
        | Except.error e => Except.error e
        | Except.ok records => parseAll records) = Except.ok rows := h
      have hr2 : (match recordsOf v with
        | Except.ok records => some records
        | Except.error _ => none) = some records := hr
      cases hro : recordsOf v with
      | error e => rw [hro] at hr2; exact Option.noConfusion hr2
      | ok records' =>
        rw [hro] at h2 hr2
        have hr' : some records' = some records := hr2
        injection hr' with hr'
        subst hr'
        exact h2

lemma fetch_err_of_parse_fail (status : Nat) (body : JVal)
    (records : List JVal) (rec : JVal)
    (hr : responseRecords body = some records) (hm : rec ∈ records)
    (hfail : ∀ x, parseRec rec ≠ Except.ok x) :
    isErr (fetch_indicator status body) = true := by
  cases hf : fetch_indicator status body with
  | error e => rfl
  | ok rows =>
    have hpa := fetch_ok_parseAll status body records rows hr hf
    have := parseAll_error_of_mem records rec hm hfail
    rw [hpa] at this
    exact absurd this (by simp [isErr])

/-! ### Claim theorems about the fetch stage -/

/-- Claim C5: a fetch with a success status whose parsed body carries, as
the second JSON element, the single observation record with
countryiso3code USA, country value United States, date "2020" and value
331000000 yields exactly the one Observation row keyed (USA, United
States, 2020) with value 331000000 — the year being the integer 2020 by
the construction of `Key`. -/
theorem observation_row_scenario :
    fetch_indicator 200 (JVal.jarr [JVal.jnull, JVal.jarr [usaPopRec]]) =
      Except.ok [(usaKey2020, Cell.val 331000000)] := rfl

/-- Claim C8: the fetch fails — returning the error branch and hence no
partial table — whenever the HTTP status is a 4xx/5xx error status, or
the parsed response lacks a second element, or some observation record
of the response lacks one of the expected fields.  (The model is a
single pure call, so no retry exists by construction.) -/
theorem fetch_error_conditions (status : Nat) (body : JVal) :
    ((400 ≤ status ∧ status < 600) →
      isErr (fetch_indicator status body) = true) ∧
    (¬ hasSecond body → isErr (fetch_indicator status body) = true) ∧
    (∀ records rec, responseRecords body = some records → rec ∈ records →
      lacksExpectedField rec → isErr (fetch_indicator status body) = true) := by
  refine ⟨?_, ?_, ?_⟩
  · intro hbad
    unfold fetch_indicator raiseForStatus
    rw [if_pos hbad]
    rfl
  · intro hns
    obtain ⟨e, he⟩ := secondElement_error_of_not_hasSecond body hns
    unfold fetch_indicator
    cases hrs : raiseForStatus status with
    | error e2 => rfl
    | ok u => rw [he]; rfl
  · intro records rec hr hm hlacks
    exact fetch_err_of_parse_fail status body records rec hr hm
      (parseRec_error_of_lacks rec hlacks)

/-- Claim C8 witness: at the concrete error status 404 the hypotheses
hold and the fetch returns the error branch. -/
theorem fetch_error_conditions_witness :
    (400 ≤ 404 ∧ 404 < 600) ∧ isErr (fetch_indicator 404 JVal.jnull) = true :=
  ⟨by decide, (fetch_error_conditions 404 JVal.jnull).1 (by decide)⟩

/-- Claim C10: a response containing an observation record whose date
field is a string that does not parse as a Python integer makes the
fetch fail with an error and produce no rows at all, whatever the other
fields contain. -/
theorem date_not_integer_fails (status : Nat) (body : JVal)
    (records : List JVal) (rec : JVal) (s : String)
    (hr : responseRecords body = some records) (hm : rec ∈ records)
    (hd : rec.getField "date" = some (JVal.jstr s)) (hs : pyInt s = none) :
    isErr (fetch_indicator status body) = true :=
  fetch_err_of_parse_fail status body records rec hr hm
    (parseRec_error_of_bad_date rec s hd hs)

/-- Claim C10 witness: a record whose date is the quarterly label
"2020Q1", with every expected field present, fails the fetch. -/
theorem date_not_integer_fails_witness :
    pyInt "2020Q1" = none ∧
    isErr (fetch_indicator 200 (JVal.jarr [JVal.jnull, JVal.jarr
      [JVal.jobj [("countryiso3code", JVal.jstr "USA"),
        ("country", JVal.jobj [("value", JVal.jstr "United States")]),
        ("date", JVal.jstr "2020Q1"), ("value", JVal.jnum 5)]]])) = true :=
  ⟨by decide, date_not_integer_fails 200 _ _ _ "2020Q1" rfl
    (List.mem_singleton.mpr rfl) rfl (by decide)⟩

/-- Claim C9 counterexample: the fetch performs no deduplication, so a
response whose second element repeats an observation for the same
(countryiso3code, date) yields a table with two rows for the
(country_code, year) pair (USA, 2020) — refuting, for this response,
that a fetched table has at most one row per such pair. -/
theorem fetch_duplicate_keys_counterexample :
    fetch_indicator 200 (JVal.jarr [JVal.jnull, JVal.jarr
        [usaPopRec, usaPopRec]]) =
      Except.ok [(usaKey2020, Cell.val 331000000),
        (usaKey2020, Cell.val 331000000)] ∧
    ¬ ([(usaKey2020, Cell.val 331000000),
        (usaKey2020, Cell.val 331000000)].map
          (fun r => (r.1.country_code, r.1.year))).Nodup :=
  ⟨rfl, by decide⟩

/-- Claim C9 (amended): whenever the response's records are pairwise
distinct on the (countryiso3code, parsed integer date) pair they
contribute, the table returned by a successful fetch has at most one row
per (country_code, year) pair. -/
theorem fetch_unique_keys (status : Nat) (body : JVal)
    (records : List JVal) (rows : List (Key × Cell))
    (hr : responseRecords body = some records)
    (hok : fetch_indicator status body = Except.ok rows)
    (hnd : (records.map recKey).Nodup) :
    (rows.map (fun r => (r.1.country_code, r.1.year))).Nodup := by
  rw [parseAll_ok_map records rows (fetch_ok_parseAll status body records rows hr hok)]
  exact hnd

/-- Claim C9 witness: a response with two records on distinct
(countryiso3code, date) keys satisfies the hypotheses and yields a table
with pairwise-distinct (country_code, year) pairs. -/
theorem fetch_unique_keys_witness :
    fetch_indicator 200 (JVal.jarr [JVal.jnull, JVal.jarr
        [usaPopRec, canPopRec]]) =
      Except.ok [(usaKey2020, Cell.val 331000000),
        ((⟨"CAN", "Canada", 2020⟩ : Key), Cell.na)] ∧
    ([(usaKey2020, Cell.val 331000000),
        ((⟨"CAN", "Canada", 2020⟩ : Key), Cell.na)].map
          (fun r => (r.1.country_code, r.1.year))).Nodup :=
  ⟨rfl, fetch_unique_keys 200
    (JVal.jarr [JVal.jnull, JVal.jarr [usaPopRec, canPopRec]])
    [usaPopRec, canPopRec]
    [(usaKey2020, Cell.val 331000000),
      ((⟨"CAN", "Canada", 2020⟩ : Key), Cell.na)]
    rfl rfl (by decide)⟩

/-! ### Lemmas about cells, frames and the outer-join fold -/

lemma Cell.mul_na_right (x : Cell) : Cell.mul x Cell.na = Cell.na := by
  cases x <;> rfl

lemma Cell.div_na_right (x : Cell) : Cell.div x Cell.na = Cell.na := by
  cases x <;> rfl

lemma length_naList (n : Nat) : (naList n).length = n := by
  simp [naList]

lemma indFrame_wf (name : String) (t : List (Key × Cell)) :
    FrameWF (indFrame name t) := by
  intro r hr
  simp only [indFrame, List.mem_map] at hr
  obtain ⟨x, -, rfl⟩ := hr
  rfl

lemma mergeOuter_wf (l r : Frame) (hl : FrameWF l) (hr : FrameWF r) :
    FrameWF (mergeOuter l r) := by
  intro row hrow
  simp only [mergeOuter, List.mem_append, List.mem_flatMap, List.mem_map] at hrow
  rcases hrow with ⟨lr, hlr, hmem⟩ | ⟨rr, hrr, heq⟩
  · by_cases hms : (r.rows.filter (fun rr => rr.1 == lr.1)).isEmpty
    · rw [if_pos hms] at hmem
      simp only [List.mem_singleton] at hmem
      subst hmem
      show (lr.2 ++ naList r.cols.length).length = (l.cols ++ r.cols).length
      simp [hl lr hlr, length_naList]
    · rw [if_neg hms] at hmem
      simp only [List.mem_map] at hmem
      obtain ⟨rr, hrrf, rfl⟩ := hmem
      have hrr' := (List.mem_filter.mp hrrf).1
      show (lr.2 ++ rr.2).length = (l.cols ++ r.cols).length
      simp [hl lr hlr, hr rr hrr']
  · obtain rfl := heq
    have hrr' := (List.mem_filter.mp hrr).1
    show (naList l.cols.length ++ rr.2).length = (l.cols ++ r.cols).length
    simp [hr rr hrr', length_naList]

lemma mem_mergeOuter (l r : Frame) (hl : FrameWF l) (hr : FrameWF r)
    (k : Key) (cs : List Cell) (h : (k, cs) ∈ (mergeOuter l r).rows) :
    ∃ lcs rcs, cs = lcs ++ rcs ∧ lcs.length = l.cols.length ∧
      rcs.length = r.cols.length ∧
      ((k, lcs) ∈ l.rows ∨ (lcs = naList l.cols.length ∧ ¬ l.hasKey k)) ∧
      ((k, rcs) ∈ r.rows ∨ (rcs = naList r.cols.length ∧ ¬ r.hasKey k)) := by
  simp only [mergeOuter, List.mem_append, List.mem_flatMap, List.mem_map] at h
  rcases h with ⟨lr, hlr, hmem⟩ | ⟨rr, hrrf, heq⟩
  · by_cases hms : (r.rows.filter (fun rr => rr.1 == lr.1)).isEmpty
    · rw [if_pos hms] at hmem
      simp only [List.mem_singleton, Prod.mk.injEq] at hmem
      obtain ⟨hk, rfl⟩ := hmem
      subst hk
      refine ⟨lr.2, naList r.cols.length, rfl, hl lr hlr, length_naList _,
        Or.inl (by rw [Prod.mk.eta]; exact hlr), Or.inr ⟨rfl, ?_⟩⟩
      rintro ⟨cs', hcs'⟩
      have hnil : r.rows.filter (fun rr => rr.1 == lr.1) = [] :=
        List.isEmpty_iff.mp hms
      have := List.filter_eq_nil_iff.mp hnil (lr.1, cs') hcs'
      simp at this
    · rw [if_neg hms] at hmem
      simp only [List.mem_map] at hmem
      obtain ⟨rr, hrrf, heq⟩ := hmem
      have hrmem := (List.mem_filter.mp hrrf).1
      have hrk : rr.1 = lr.1 := by
        have := (List.mem_filter.mp hrrf).2
        simpa using this
      obtain ⟨hk, rfl⟩ := Prod.mk.injEq .. ▸ heq
      subst hk
      refine ⟨lr.2, rr.2, rfl, hl lr hlr, hr rr hrmem,
        Or.inl (by rw [Prod.mk.eta]; exact hlr),
        Or.inl (by rw [← hrk, Prod.mk.eta]; exact hrmem)⟩
  · obtain ⟨hk, rfl⟩ := Prod.mk.injEq .. ▸ heq
    have hrmem := (List.mem_filter.mp hrrf).1
    have hall := (List.mem_filter.mp hrrf).2
    subst hk
    refine ⟨naList l.cols.length, rr.2, rfl, length_naList _, hr rr hrmem,
      Or.inr ⟨rfl, ?_⟩, Or.inl (by rw [Prod.mk.eta]; exact hrmem)⟩
    rintro ⟨cs', hcs'⟩
    have := List.all_eq_true.mp hall (rr.1, cs') hcs'
    simp at this

lemma hasKey_mergeOuter (l r : Frame) (k : Key) :
    (mergeOuter l r).hasKey k ↔ l.hasKey k ∨ r.hasKey k := by
  constructor
  · rintro ⟨cs, hcs⟩
    simp only [mergeOuter, List.mem_append, List.mem_flatMap, List.mem_map]
      at hcs
    rcases hcs with ⟨lr, hlr, hmem⟩ | ⟨rr, hrrf, heq⟩
    · left
      by_cases hms : (r.rows.filter (fun rr => rr.1 == lr.1)).isEmpty
      · rw [if_pos hms] at hmem
        simp only [List.mem_singleton, Prod.mk.injEq] at hmem
        obtain ⟨hk, -⟩ := hmem
        exact ⟨lr.2, by rw [hk, Prod.mk.eta]; exact hlr⟩
      · rw [if_neg hms] at hmem
        simp only [List.mem_map] at hmem
        obtain ⟨rr, -, heq⟩ := hmem
        obtain ⟨hk, -⟩ := Prod.mk.injEq .. ▸ heq
        exact ⟨lr.2, by rw [← hk, Prod.mk.eta]; exact hlr⟩
    · right
      obtain ⟨hk, -⟩ := Prod.mk.injEq .. ▸ heq
      have hrmem := (List.mem_filter.mp hrrf).1
      exact ⟨rr.2, by rw [← hk, Prod.mk.eta]; exact hrmem⟩
  · rintro (⟨lcs, hlcs⟩ | ⟨rcs, hrcs⟩)
    · rcases hex : r.rows.filter (fun rr => rr.1 == k) with - | ⟨rr0, ms⟩
      · refine ⟨lcs ++ naList r.cols.length, ?_⟩
        simp only [mergeOuter, List.mem_append, List.mem_flatMap]
        left
        refine ⟨(k, lcs), hlcs, ?_⟩
        rw [show r.rows.filter (fun rr => rr.1 == (k, lcs).1) = [] from hex]
        simp
      · refine ⟨lcs ++ rr0.2, ?_⟩
        simp only [mergeOuter, List.mem_append, List.mem_flatMap]
        left
        refine ⟨(k, lcs), hlcs, ?_⟩
        rw [show r.rows.filter (fun rr => rr.1 == (k, lcs).1) = rr0 :: ms
          from hex]
        simp
    · by_cases hex : ∃ lr ∈ l.rows, lr.1 = k
      · obtain ⟨lr, hlr, hk⟩ := hex
        refine ⟨lr.2 ++ rcs, ?_⟩
        simp only [mergeOuter, List.mem_append, List.mem_flatMap]
        left
        refine ⟨lr, hlr, ?_⟩
        have hmem : (k, rcs) ∈ r.rows.filter (fun rr => rr.1 == lr.1) := by
          rw [List.mem_filter]
          exact ⟨hrcs, by simp [hk]⟩
        have hne : ¬ (r.rows.filter (fun rr => rr.1 == lr.1)).isEmpty = true := by
          rcases hq : r.rows.filter (fun rr => rr.1 == lr.1) with - | _
          · rw [hq] at hmem; cases hmem
          · simp [hq]
        rw [if_neg hne, List.mem_map]
        exact ⟨(k, rcs), hmem, by simp [hk]⟩
      · push_neg at hex
        refine ⟨naList l.cols.length ++ rcs, ?_⟩
        simp only [mergeOuter, List.mem_append]
        right
        rw [List.mem_map]
        refine ⟨(k, rcs), ?_, rfl⟩
        rw [List.mem_filter]
        refine ⟨hrcs, ?_⟩
        rw [List.all_eq_true]
        intro lr hlr
        simp [hex lr hlr]

lemma hasKey_indFrame (name : String) (t : List (Key × Cell)) (k : Key) :
    (indFrame name t).hasKey k ↔ tblHasKey t k := by
  constructor
  · rintro ⟨cs, hcs⟩
    simp only [indFrame, List.mem_map] at hcs
    obtain ⟨x, hx, heq⟩ := hcs
    obtain ⟨h1, -⟩ := Prod.mk.injEq .. ▸ heq
    exact ⟨x.2, by rw [← h1, Prod.mk.eta]; exact hx⟩
  · rintro ⟨c, hc⟩
    refine ⟨[c], ?_⟩
    simp only [indFrame, List.mem_map]
    exact ⟨(k, c), hc, rfl⟩

lemma mem_indFrame (name : String) (t : List (Key × Cell)) (k : Key)
    (cs : List Cell) (h : (k, cs) ∈ (indFrame name t).rows) :
    ∃ c, cs = [c] ∧ (k, c) ∈ t := by
  simp only [indFrame, List.mem_map] at h
  obtain ⟨x, hx, heq⟩ := h
  obtain ⟨h1, h2⟩ := Prod.mk.injEq .. ▸ heq
  exact ⟨x.2, h2.symm, by rw [← h1, Prod.mk.eta]; exact hx⟩

lemma mergedRaw_eq (t1 t2 t3 t4 : List (Key × Cell)) :
    mergedRaw t1 t2 t3 t4 =
      mergeOuter (mergeOuter (mergeOuter (indFrame indicatorRS t1)
        (indFrame indicatorEU t2)) (indFrame indicatorPop t3))
        (indFrame indicatorGDP t4) := rfl

lemma mergedRaw_wf (t1 t2 t3 t4 : List (Key × Cell)) :
    FrameWF (mergedRaw t1 t2 t3 t4) := by
  rw [mergedRaw_eq]
  exact mergeOuter_wf _ _ (mergeOuter_wf _ _ (mergeOuter_wf _ _
    (indFrame_wf _ _) (indFrame_wf _ _)) (indFrame_wf _ _)) (indFrame_wf _ _)

lemma hasKey_mergedRaw (t1 t2 t3 t4 : List (Key × Cell)) (k : Key) :
    (mergedRaw t1 t2 t3 t4).hasKey k ↔
      tblHasKey t1 k ∨ tblHasKey t2 k ∨ tblHasKey t3 k ∨ tblHasKey t4 k := by
  rw [mergedRaw_eq, hasKey_mergeOuter, hasKey_mergeOuter, hasKey_mergeOuter,
    hasKey_indFrame, hasKey_indFrame, hasKey_indFrame, hasKey_indFrame,
    or_assoc, or_assoc]

lemma mergedRaw_rows_decompose (t1 t2 t3 t4 : List (Key × Cell)) (k : Key)
    (cs : List Cell) (h : (k, cs) ∈ (mergedRaw t1 t2 t3 t4).rows) :
    ∃ c1 c2 c3 c4 : Cell, cs = [c1, c2, c3, c4] ∧
      ((k, c1) ∈ t1 ∨ (c1 = Cell.na ∧ ¬ tblHasKey t1 k)) ∧
      ((k, c2) ∈ t2 ∨ (c2 = Cell.na ∧ ¬ tblHasKey t2 k)) ∧
      ((k, c3) ∈ t3 ∨ (c3 = Cell.na ∧ ¬ tblHasKey t3 k)) ∧
      ((k, c4) ∈ t4 ∨ (c4 = Cell.na ∧ ¬ tblHasKey t4 k)) := by
  rw [mergedRaw_eq] at h
  have wfA := indFrame_wf indicatorRS t1
  have wfB := indFrame_wf indicatorEU t2
  have wfC := indFrame_wf indicatorPop t3
  have wfD := indFrame_wf indicatorGDP t4
  have wf2 := mergeOuter_wf _ _ wfA wfB
  have wf3 := mergeOuter_wf _ _ wf2 wfC
  obtain ⟨l3, p4, rfl, hlen3, hlen4, hL3, hP4⟩ :=
    mem_mergeOuter _ _ wf3 wfD k cs h
  have hc4 : ∃ c4 : Cell, p4 = [c4] ∧
      ((k, c4) ∈ t4 ∨ (c4 = Cell.na ∧ ¬ tblHasKey t4 k)) := by
    rcases hP4 with hmem | ⟨rfl, hnk⟩
    · obtain ⟨c4, rfl, hc⟩ := mem_indFrame _ _ _ _ hmem
      exact ⟨c4, rfl, Or.inl hc⟩
    · exact ⟨Cell.na, rfl, Or.inr ⟨rfl, fun hk =>
        hnk ((hasKey_indFrame _ _ _).mpr hk)⟩⟩
  obtain ⟨c4, rfl, h4⟩ := hc4
  rcases hL3 with hmem3 | ⟨rfl, hnk3⟩
  · obtain ⟨l2, p3, rfl, hlen2, hlen3', hL2, hP3⟩ :=
      mem_mergeOuter _ _ wf2 wfC k l3 hmem3
    have hc3 : ∃ c3 : Cell, p3 = [c3] ∧
        ((k, c3) ∈ t3 ∨ (c3 = Cell.na ∧ ¬ tblHasKey t3 k)) := by
      rcases hP3 with hmem | ⟨rfl, hnk⟩
      · obtain ⟨c3, rfl, hc⟩ := mem_indFrame _ _ _ _ hmem
        exact ⟨c3, rfl, Or.inl hc⟩
      · exact ⟨Cell.na, rfl, Or.inr ⟨rfl, fun hk =>
          hnk ((hasKey_indFrame _ _ _).mpr hk)⟩⟩
    obtain ⟨c3, rfl, h3⟩ := hc3
    rcases hL2 with hmem2 | ⟨rfl, hnk2⟩
    · obtain ⟨p1, p2, rfl, hlen1, hlen2', hP1, hP2⟩ :=
        mem_mergeOuter _ _ wfA wfB k l2 hmem2
      have hc1 : ∃ c1 : Cell, p1 = [c1] ∧
          ((k, c1) ∈ t1 ∨ (c1 = Cell.na ∧ ¬ tblHasKey t1 k)) := by
        rcases hP1 with hmem | ⟨rfl, hnk⟩
        · obtain ⟨c1, rfl, hc⟩ := mem_indFrame _ _ _ _ hmem
          exact ⟨c1, rfl, Or.inl hc⟩
        · exact ⟨Cell.na, rfl, Or.inr ⟨rfl, fun hk =>
            hnk ((hasKey_indFrame _ _ _).mpr hk)⟩⟩
      have hc2 : ∃ c2 : Cell, p2 = [c2] ∧
          ((k, c2) ∈ t2 ∨ (c2 = Cell.na ∧ ¬ tblHasKey t2 k)) := by
        rcases hP2 with hmem | ⟨rfl, hnk⟩
        · obtain ⟨c2, rfl, hc⟩ := mem_indFrame _ _ _ _ hmem
          exact ⟨c2, rfl, Or.inl hc⟩
        · exact ⟨Cell.na, rfl, Or.inr ⟨rfl, fun hk =>
            hnk ((hasKey_indFrame _ _ _).mpr hk)⟩⟩
      obtain ⟨c1, rfl, h1⟩ := hc1
      obtain ⟨c2, rfl, h2⟩ := hc2
      exact ⟨c1, c2, c3, c4, rfl, h1, h2, h3, h4⟩
    · have hnkA : ¬ tblHasKey t1 k := fun hk =>
        hnk2 ((hasKey_mergeOuter _ _ _).mpr (Or.inl
          ((hasKey_indFrame _ _ _).mpr hk)))
      have hnkB : ¬ tblHasKey t2 k := fun hk =>
        hnk2 ((hasKey_mergeOuter _ _ _).mpr (Or.inr
          ((hasKey_indFrame _ _ _).mpr hk)))
      exact ⟨Cell.na, Cell.na, c3, c4, rfl, Or.inr ⟨rfl, hnkA⟩,
        Or.inr ⟨rfl, hnkB⟩, h3, h4⟩
  · have hnkA : ¬ tblHasKey t1 k := fun hk =>
      hnk3 ((hasKey_mergeOuter _ _ _).mpr (Or.inl
        ((hasKey_mergeOuter _ _ _).mpr (Or.inl
          ((hasKey_indFrame _ _ _).mpr hk)))))
    have hnkB : ¬ tblHasKey t2 k := fun hk =>
      hnk3 ((hasKey_mergeOuter _ _ _).mpr (Or.inl
        ((hasKey_mergeOuter _ _ _).mpr (Or.inr
          ((hasKey_indFrame _ _ _).mpr hk)))))
    have hnkC : ¬ tblHasKey t3 k := fun hk =>
      hnk3 ((hasKey_mergeOuter _ _ _).mpr (Or.inr
        ((hasKey_indFrame _ _ _).mpr hk)))
    exact ⟨Cell.na, Cell.na, Cell.na, c4, rfl, Or.inr ⟨rfl, hnkA⟩,
      Or.inr ⟨rfl, hnkB⟩, Or.inr ⟨rfl, hnkC⟩, h4⟩

/-! ### Lemmas and claim theorems about build_dataset -/

lemma build_dataset_row_shape (t1 t2 t3 t4 : List (Key × Cell))
    (countries : List String) (k : Key) (cs : List Cell)
    (hmem : (k, cs) ∈ (build_dataset t1 t2 t3 t4 countries).rows) :
    ∃ c1 c2 c3 c4 : Cell,
      cs = [c1, c2, c3, c4, Cell.mul c2 c3, Cell.div c2 c4] ∧
      (k, [c1, c2, c3, c4]) ∈ (mergedRaw t1 t2 t3 t4).rows ∧
      1990 ≤ k.year ∧ k.country_code.length = 3 ∧
      k.country_code ∈ countries ∧ c1 ≠ Cell.na ∧ c2 ≠ Cell.na := by
  simp only [build_dataset, addDerived, renameFrame, dropnaRequired,
    filterCountries, filterYearLen, List.mem_map, List.mem_filter] at hmem
  obtain ⟨⟨k0, cells0⟩, ⟨⟨⟨hr0, hp0⟩, hp1⟩, hp2⟩, hphi⟩ := hmem
  obtain ⟨hk, hcs⟩ := Prod.mk.injEq .. ▸ hphi
  subst hk
  obtain ⟨c1, c2, c3, c4, rfl, -, -, -, -⟩ :=
    mergedRaw_rows_decompose t1 t2 t3 t4 k0 cells0 hr0
  simp only [Bool.and_eq_true, decide_eq_true_eq, beq_iff_eq] at hp0
  simp only [Bool.and_eq_true, Bool.not_eq_true', beq_eq_false_iff_ne] at hp2
  exact ⟨c1, c2, c3, c4, hcs.symm, hr0, hp0.1, hp0.2,
    List.elem_iff.mp hp1, hp2.1, hp2.2⟩

/-- Claim C1 (amended): when the four indicator tables are nonempty and
keyed by the full (country_code, country, year) triple — the key the
code actually joins on — the merged table before any filtering contains
exactly the union of the keys of the four tables, with a NaN marker in
the column of any indicator whose table has no row at a given key; and
merging a table carrying only renewable_share for (USA, United States,
2020) with one carrying only population there (the other two indicators
null at that key) yields exactly one merged row with both values
populated and energy_use_per_capita missing. -/
theorem join_completeness (t1 t2 t3 t4 : List (Key × Cell))
    (_h1 : t1 ≠ []) (_h2 : t2 ≠ []) (_h3 : t3 ≠ []) (_h4 : t4 ≠ []) :
    (∀ k : Key, (mergedRaw t1 t2 t3 t4).hasKey k ↔
      (tblHasKey t1 k ∨ tblHasKey t2 k ∨ tblHasKey t3 k ∨ tblHasKey t4 k)) ∧
    (∀ (k : Key) (cs : List Cell), (k, cs) ∈ (mergedRaw t1 t2 t3 t4).rows →
      (¬ tblHasKey t1 k →
        getCol (mergedRaw t1 t2 t3 t4).cols cs indicatorRS = Cell.na) ∧
      (¬ tblHasKey t2 k →
        getCol (mergedRaw t1 t2 t3 t4).cols cs indicatorEU = Cell.na) ∧
      (¬ tblHasKey t3 k →
        getCol (mergedRaw t1 t2 t3 t4).cols cs indicatorPop = Cell.na) ∧
      (¬ tblHasKey t4 k →
        getCol (mergedRaw t1 t2 t3 t4).cols cs indicatorGDP = Cell.na)) ∧
    (mergedRaw wrsTbl weuNaTbl wpopTbl wgdpNaTbl).rows =
      [(usaKey2020, [Cell.val 15, Cell.na, Cell.val 331000000, Cell.na])] := by
  refine ⟨hasKey_mergedRaw t1 t2 t3 t4, ?_, by decide⟩
  intro k cs hmem
  obtain ⟨c1, c2, c3, c4, rfl, hc1, hc2, hc3, hc4⟩ :=
    mergedRaw_rows_decompose t1 t2 t3 t4 k cs hmem
  refine ⟨?_, ?_, ?_, ?_⟩
  · intro hnk
    rcases hc1 with hm | ⟨rfl, -⟩
    · exact absurd ⟨c1, hm⟩ hnk
    · rfl
  · intro hnk
    rcases hc2 with hm | ⟨rfl, -⟩
    · exact absurd ⟨c2, hm⟩ hnk
    · rfl
  · intro hnk
    rcases hc3 with hm | ⟨rfl, -⟩
    · exact absurd ⟨c3, hm⟩ hnk
    · rfl
  · intro hnk
    rcases hc4 with hm | ⟨rfl, -⟩
    · exact absurd ⟨c4, hm⟩ hnk
    · rfl

/-- Claim C1 witness: the four concrete one-row tables are nonempty, and
the key-union equivalence holds at (USA, United States, 2020). -/
theorem join_completeness_witness :
    (wrsTbl ≠ [] ∧ weuNaTbl ≠ [] ∧ wpopTbl ≠ [] ∧ wgdpNaTbl ≠ []) ∧
    ((mergedRaw wrsTbl weuNaTbl wpopTbl wgdpNaTbl).hasKey usaKey2020 ↔
      (tblHasKey wrsTbl usaKey2020 ∨ tblHasKey weuNaTbl usaKey2020 ∨
       tblHasKey wpopTbl usaKey2020 ∨ tblHasKey wgdpNaTbl usaKey2020)) :=
  ⟨⟨by decide, by decide, by decide, by decide⟩,
    (join_completeness wrsTbl weuNaTbl wpopTbl wgdpNaTbl
      (by decide) (by decide) (by decide) (by decide)).1 usaKey2020⟩

/-- Claim C1 counterexample: four tables all keyed at the single
(country_code, year) pair (USA, 2020) — renewable_share carrying a value
under country name United States, population carrying a value under
country name USA — merge into TWO rows for that pair, neither with both
values populated, because the code joins on (country_code, country,
year), not on (country_code, year). -/
theorem join_completeness_counterexample :
    (mergedRaw [(usaKey2020, Cell.val 15)] [(usaKey2020, Cell.na)]
        [((⟨"USA", "USA", 2020⟩ : Key), Cell.val 331000000)]
        [(usaKey2020, Cell.na)]).rows =
      [(usaKey2020, [Cell.val 15, Cell.na, Cell.na, Cell.na]),
       ((⟨"USA", "USA", 2020⟩ : Key),
         [Cell.na, Cell.na, Cell.val 331000000, Cell.na])] := by decide

/-- Claim C2: every row of the final merged table built with the
configured country list has year at least 1990, a country_code of
exactly 3 characters all of which are letters, a country_code in the
configured list, and non-missing renewable_share and
energy_use_per_capita. -/
theorem dataset_filter_invariants (t1 t2 t3 t4 : List (Key × Cell))
    (k : Key) (cs : List Cell)
    (hmem : (k, cs) ∈ (build_dataset t1 t2 t3 t4 mainCountries).rows) :
    1990 ≤ k.year ∧
    k.country_code.length = 3 ∧
    k.country_code.toList.all Char.isAlpha = true ∧
    k.country_code ∈ mainCountries ∧
    getCol (build_dataset t1 t2 t3 t4 mainCountries).cols cs
      "renewable_share" ≠ Cell.na ∧
    getCol (build_dataset t1 t2 t3 t4 mainCountries).cols cs
      "energy_use_per_capita" ≠ Cell.na := by
  obtain ⟨c1, c2, c3, c4, rfl, -, hy, hlen, hcc, hrs, heu⟩ :=
    build_dataset_row_shape t1 t2 t3 t4 mainCountries k cs hmem
  have halpha : ∀ c ∈ mainCountries, c.toList.all Char.isAlpha = true := by
    decide
  exact ⟨hy, hlen, halpha _ hcc, hcc, hrs, heu⟩

/-- Claim C2 witness: a concrete run with all four indicators present
for (USA, United States, 2020) has a surviving row satisfying every
invariant. -/
theorem dataset_filter_invariants_witness :
    (usaKey2020, [Cell.val 15, Cell.val 5, Cell.na, Cell.na, Cell.na,
        Cell.na]) ∈
      (build_dataset wrsTbl weuTbl wpopNaTbl wgdpNaTbl mainCountries).rows ∧
    (1990 ≤ usaKey2020.year ∧
      usaKey2020.country_code.length = 3 ∧
      usaKey2020.country_code.toList.all Char.isAlpha = true ∧
      usaKey2020.country_code ∈ mainCountries ∧
      getCol (build_dataset wrsTbl weuTbl wpopNaTbl wgdpNaTbl
          mainCountries).cols
        [Cell.val 15, Cell.val 5, Cell.na, Cell.na, Cell.na, Cell.na]
        "renewable_share" ≠ Cell.na ∧
      getCol (build_dataset wrsTbl weuTbl wpopNaTbl wgdpNaTbl
          mainCountries).cols
        [Cell.val 15, Cell.val 5, Cell.na, Cell.na, Cell.na, Cell.na]
        "energy_use_per_capita" ≠ Cell.na) :=
  ⟨by decide, dataset_filter_invariants wrsTbl weuTbl wpopNaTbl wgdpNaTbl
    usaKey2020 _ (by decide)⟩

/-- Claim C3: in every final-table row whose energy_use_per_capita,
population and gdp_per_capita are all present finite values (the
quotient being taken with a nonzero divisor, the zero case being the
subject of the error-propagation claim), the derived columns satisfy
total_energy_use = energy_use_per_capita × population and
energy_intensity = energy_use_per_capita / gdp_per_capita exactly, the
arithmetic being modelled exactly over ℚ. -/
theorem derived_values_correct (t1 t2 t3 t4 : List (Key × Cell))
    (countries : List String) (k : Key) (cs : List Cell) (e p g : ℚ)
    (hmem : (k, cs) ∈ (build_dataset t1 t2 t3 t4 countries).rows)
    (he : getCol (build_dataset t1 t2 t3 t4 countries).cols cs
      "energy_use_per_capita" = Cell.val e)
    (hp : getCol (build_dataset t1 t2 t3 t4 countries).cols cs
      "population" = Cell.val p)
    (hg : getCol (build_dataset t1 t2 t3 t4 countries).cols cs
      "gdp_per_capita" = Cell.val g)
    (hg0 : g ≠ 0) :
    getCol (build_dataset t1 t2 t3 t4 countries).cols cs
      "total_energy_use" = Cell.val (e * p) ∧
    getCol (build_dataset t1 t2 t3 t4 countries).cols cs
      "energy_intensity" = Cell.val (e / g) := by
  obtain ⟨c1, c2, c3, c4, rfl, -, -, -, -, -, -⟩ :=
    build_dataset_row_shape t1 t2 t3 t4 countries k cs hmem
  have he' : c2 = Cell.val e := he
  have hp' : c3 = Cell.val p := hp
  have hg' : c4 = Cell.val g := hg
  subst he' hp' hg'
  constructor
  · show Cell.mul (Cell.val e) (Cell.val p) = Cell.val (e * p)
    rfl
  · show Cell.div (Cell.val e) (Cell.val g) = Cell.val (e / g)
    have hdef : Cell.div (Cell.val e) (Cell.val g) =
        if g = 0 then
          (if 0 < e then Cell.posinf else if e < 0 then Cell.neginf
            else Cell.na)
        else Cell.val (e / g) := rfl
    rw [hdef, if_neg hg0]

/-- Claim C3 witness: a concrete row with energy use 5, population 3 and
GDP per capita 2 yields total_energy_use 5 × 3 and energy_intensity
5 / 2. -/
theorem derived_values_correct_witness :
    (usaKey2020, [Cell.val 15, Cell.val 5, Cell.val 3, Cell.val 2,
        Cell.mul (Cell.val 5) (Cell.val 3),
        Cell.div (Cell.val 5) (Cell.val 2)]) ∈
      (build_dataset wrsTbl weuTbl wpop3Tbl wgdp2Tbl mainCountries).rows ∧
    ((2 : ℚ) ≠ 0) ∧
    (getCol (build_dataset wrsTbl weuTbl wpop3Tbl wgdp2Tbl
        mainCountries).cols
      [Cell.val 15, Cell.val 5, Cell.val 3, Cell.val 2,
        Cell.mul (Cell.val 5) (Cell.val 3),
        Cell.div (Cell.val 5) (Cell.val 2)]
      "total_energy_use" = Cell.val (5 * 3) ∧
    getCol (build_dataset wrsTbl weuTbl wpop3Tbl wgdp2Tbl
        mainCountries).cols
      [Cell.val 15, Cell.val 5, Cell.val 3, Cell.val 2,
        Cell.mul (Cell.val 5) (Cell.val 3),
        Cell.div (Cell.val 5) (Cell.val 2)]
      "energy_intensity" = Cell.val (5 / 2)) := by
  have hmem : (usaKey2020, [Cell.val 15, Cell.val 5, Cell.val 3, Cell.val 2,
      Cell.mul (Cell.val 5) (Cell.val 3),
      Cell.div (Cell.val 5) (Cell.val 2)]) ∈
      (build_dataset wrsTbl weuTbl wpop3Tbl wgdp2Tbl mainCountries).rows := by
    rw [show (build_dataset wrsTbl weuTbl wpop3Tbl wgdp2Tbl
        mainCountries).rows =
      [(usaKey2020, [Cell.val 15, Cell.val 5, Cell.val 3, Cell.val 2,
        Cell.mul (Cell.val 5) (Cell.val 3),
        Cell.div (Cell.val 5) (Cell.val 2)])] from rfl]
    exact List.mem_singleton.mpr rfl
  exact ⟨hmem, by decide,
    derived_values_correct wrsTbl weuTbl wpop3Tbl wgdp2Tbl mainCountries
      usaKey2020 _ 5 3 2 hmem rfl rfl rfl (by decide)⟩

/-- Claim C4 (amended): in every final-table row, a missing population
makes total_energy_use missing and a missing gdp_per_capita makes
energy_intensity missing; the derivation is a total function (no error
is raised); but a zero gdp_per_capita does NOT yield the missing marker:
it yields a signed infinity according to the sign of
energy_use_per_capita, and NaN only when energy_use_per_capita is also
zero. -/
theorem derived_missing_propagation (t1 t2 t3 t4 : List (Key × Cell))
    (countries : List String) (k : Key) (cs : List Cell)
    (hmem : (k, cs) ∈ (build_dataset t1 t2 t3 t4 countries).rows) :
    (getCol (build_dataset t1 t2 t3 t4 countries).cols cs
        "population" = Cell.na →
      getCol (build_dataset t1 t2 t3 t4 countries).cols cs
        "total_energy_use" = Cell.na) ∧
    (getCol (build_dataset t1 t2 t3 t4 countries).cols cs
        "gdp_per_capita" = Cell.na →
      getCol (build_dataset t1 t2 t3 t4 countries).cols cs
        "energy_intensity" = Cell.na) ∧
    (∀ e : ℚ, getCol (build_dataset t1 t2 t3 t4 countries).cols cs
        "energy_use_per_capita" = Cell.val e →
      getCol (build_dataset t1 t2 t3 t4 countries).cols cs
        "gdp_per_capita" = Cell.val 0 →
      getCol (build_dataset t1 t2 t3 t4 countries).cols cs
        "energy_intensity" =
        (if 0 < e then Cell.posinf else if e < 0 then Cell.neginf
          else Cell.na)) := by
  obtain ⟨c1, c2, c3, c4, rfl, -, -, -, -, -, -⟩ :=
    build_dataset_row_shape t1 t2 t3 t4 countries k cs hmem
  refine ⟨?_, ?_, ?_⟩
  · intro hpna
    have h3 : c3 = Cell.na := hpna
    subst h3
    show Cell.mul c2 Cell.na = Cell.na
    exact Cell.mul_na_right c2
  · intro hgna
    have h4 : c4 = Cell.na := hgna
    subst h4
    show Cell.div c2 Cell.na = Cell.na
    exact Cell.div_na_right c2
  · intro e he hg
    have h2 : c2 = Cell.val e := he
    have h4 : c4 = Cell.val 0 := hg
    subst h2 h4
    show Cell.div (Cell.val e) (Cell.val 0) =
      (if 0 < e then Cell.posinf else if e < 0 then Cell.neginf else Cell.na)
    have hdef : Cell.div (Cell.val e) (Cell.val 0) =
        if (0 : ℚ) = 0 then
          (if 0 < e then Cell.posinf else if e < 0 then Cell.neginf
            else Cell.na)
        else Cell.val (e / 0) := rfl
    rw [hdef, if_pos rfl]

/-- Claim C4 witness: in a concrete run with population missing and
gdp_per_capita present but zero, total_energy_use is missing and with
energy_use_per_capita equal to 5 the intensity takes the
positive-infinity branch. -/
theorem derived_missing_propagation_witness :
    (usaKey2020, [Cell.val 15, Cell.val 5, Cell.na, Cell.val 0,
        Cell.mul (Cell.val 5) Cell.na,
        Cell.div (Cell.val 5) (Cell.val 0)]) ∈
      (build_dataset wrsTbl weuTbl wpopNaTbl wgdp0Tbl mainCountries).rows ∧
    getCol (build_dataset wrsTbl weuTbl wpopNaTbl wgdp0Tbl
        mainCountries).cols
      [Cell.val 15, Cell.val 5, Cell.na, Cell.val 0,
        Cell.mul (Cell.val 5) Cell.na, Cell.div (Cell.val 5) (Cell.val 0)]
      "total_energy_use" = Cell.na ∧
    getCol (build_dataset wrsTbl weuTbl wpopNaTbl wgdp0Tbl
        mainCountries).cols
      [Cell.val 15, Cell.val 5, Cell.na, Cell.val 0,
        Cell.mul (Cell.val 5) Cell.na, Cell.div (Cell.val 5) (Cell.val 0)]
      "energy_intensity" = Cell.posinf := by
  have hth := derived_missing_propagation wrsTbl weuTbl wpopNaTbl wgdp0Tbl
    mainCountries usaKey2020
    [Cell.val 15, Cell.val 5, Cell.na, Cell.val 0,
      Cell.mul (Cell.val 5) Cell.na, Cell.div (Cell.val 5) (Cell.val 0)]
    (by decide)
  refine ⟨by decide, hth.1 rfl, ?_⟩
  have h := hth.2.2 5 rfl rfl
  rw [if_pos (by norm_num)] at h
  exact h

/-- Claim C4 counterexample: a run in which gdp_per_capita is present
and zero while energy_use_per_capita is 5 produces a final row whose
energy_intensity is positive infinity — not the missing-value marker —
refuting "if gdp_per_capita is missing or zero then energy_intensity is
missing".  (The population column is missing in the same row, and
total_energy_use is duly missing.) -/
theorem zero_division_counterexample :
    (build_dataset wrsTbl weuTbl wpopNaTbl wgdp0Tbl mainCountries).rows =
      [(usaKey2020, [Cell.val 15, Cell.val 5, Cell.na, Cell.val 0,
        Cell.na, Cell.posinf])] ∧
    Cell.posinf ≠ Cell.na := by
  exact ⟨by decide, by decide⟩

/-! ### Claim theorem about the Forecaster's year index -/

/-- Claim C6: whenever the extracted series has a last observed year Y
(it is nonempty), and the fitted model returns one point forecast per
requested step (the statsmodels contract for `forecast(steps)`), the
Forecaster produces exactly `steps` forecast points whose years are
Y+1, Y+2, …, Y+steps — strictly increasing, contiguous, with no gaps. -/
theorem forecast_horizon (f : Frame) (cc : String) (steps : Nat) (Y : Int)
    (preds : List ℚ) (hY : lastYear f cc = some Y)
    (hp : preds.length = steps) :
    forecastYears f cc steps =
      (List.range steps).map (fun (i : Nat) => Y + 1 + (i : Int)) ∧
    (forecastYears f cc steps).length = steps ∧
    (∀ i : Nat, i < steps → (forecastYears f cc steps).getD i 0 = Y + 1 + i) ∧
    List.Pairwise (· < ·) (forecastYears f cc steps) ∧
    (∀ i : Nat, i + 1 < steps →
      (forecastYears f cc steps).getD (i + 1) 0 =
        (forecastYears f cc steps).getD i 0 + 1) ∧
    (forecastPoints f cc steps preds).length = steps ∧
    (forecastPoints f cc steps preds).map Prod.fst =
      forecastYears f cc steps := by
  have h0 : forecastYears f cc steps =
      (List.range steps).map (fun (i : Nat) => Y + 1 + (i : Int)) := by
    have h1 : forecastYears f cc steps =
        pyRange (Y + 1) (Y + 1 + (steps : Int)) := by
      unfold forecastYears
      rw [hY]
    rw [h1]
    unfold pyRange
    have ht : (Y + 1 + (steps : Int) - (Y + 1)).toNat = steps := by omega
    rw [ht]
  have hlen : (forecastYears f cc steps).length = steps := by
    rw [h0, List.length_map, List.length_range]
  have hgd : ∀ i : Nat, i < steps →
      (forecastYears f cc steps).getD i 0 = Y + 1 + i := by
    intro i hi
    rw [h0]
    have hlen2 : i < ((List.range steps).map
        (fun (i : Nat) => Y + 1 + (i : Int))).length := by
      rw [List.length_map, List.length_range]; exact hi
    rw [List.getD_eq_getElem _ _ hlen2, List.getElem_map, List.getElem_range]
  refine ⟨h0, hlen, hgd, ?_, ?_, ?_, ?_⟩
  · rw [h0]
    refine List.Pairwise.map (fun (j : Nat) => Y + 1 + (j : Int)) ?_
      (List.pairwise_lt_range steps)
    intro a b hab
    show Y + 1 + (a : Int) < Y + 1 + b
    omega
  · intro i hi
    rw [hgd (i + 1) hi, hgd i (by omega)]
    push_cast
    ring
  · unfold forecastPoints
    rw [List.length_zip, hlen, hp, min_self]
  · unfold forecastPoints
    exact List.map_fst_zip _ _ (by rw [hlen, hp])

/-- Claim C6 witness: with a one-point series observed in 2020 and a
three-value forecast, the year axis is exactly 2021, 2022, 2023. -/
theorem forecast_horizon_witness :
    lastYear forecastSample "USA" = some 2020 ∧
    ([(1 : ℚ), 2, 3] : List ℚ).length = 3 ∧
    forecastYears forecastSample "USA" 3 = [2021, 2022, 2023] := by
  have hY : lastYear forecastSample "USA" = some 2020 := by
    have hidx : List.indexOf? "renewable_share" ["renewable_share"] =
      some 0 := rfl
    simp [lastYear, seriesFor, forecastSample, getCol, usaKey2020, hidx]
  refine ⟨hY, rfl, ?_⟩
  have h := (forecast_horizon forecastSample "USA" 3 2020 [(1 : ℚ), 2, 3]
    hY rfl).1
  rw [h]
  decide
